import Mathlib

/-!
Verification of the adno worker agent against its design specification.

The definitions below are shallow embeddings of the TypeScript sources:

* `src/utils/authenticated-http.ts` — `CircuitBreaker` (states, counters,
  `execute`, `onSuccess`, `onFailure`, `tripCircuit`);
* `src/http/decorators/LoggingHttpClient.ts` — `ExponentialBackoffRetryPolicy`
  (identical in behaviour to `withRetry` in `src/api/BackendApiClient.ts`);
* `src/api/BackendApiClient.ts` — the control-plane client operations and
  their error fallbacks;
* `src/config.ts` — `loadConfig` / `validateConfig`;
* `src/runtime/AgentRuntime.ts` — the task dispatcher (`pollAndExecuteTasks`,
  `executeTask`), interval reconfiguration (`updateIntervals`) and the
  polling-backoff control (`restartTaskPollingWithBackoff`,
  `resetTaskPollingInterval`, `startTaskPolling`).

Machine integers are modelled as `Nat` (all quantities involved — HTTP status
codes, millisecond intervals, counters — are non-negative and far below any
overflow boundary in the source). JavaScript `undefined` status values are
modelled as `Option Nat` (`getErrorStatus` in `src/utils/HttpError.ts` returns
`number | undefined`).
-/

namespace Adno

/-! ## Errors of the HTTP chain

Mirrors `HttpError` / `getErrorStatus` from `src/utils/HttpError.ts`:
an error carries an optional numeric status (`none` for timeouts, network
errors and non-HTTP exceptions) and a message. -/

/-- Structured error as observed through `getErrorStatus` / `getErrorMessage`:
optional numeric HTTP status plus a message. -/
structure HttpErr where
  status : Option Nat
  message : String
deriving DecidableEq, Repr

/-! ## Circuit breaker (`src/utils/authenticated-http.ts`) -/

/-- Circuit breaker states, from `enum CircuitState`. -/
inductive CircuitState where
  | CLOSED
  | OPEN
  | HALF_OPEN
deriving DecidableEq, Repr

/-- Circuit breaker configuration, from `interface CircuitBreakerConfig`. -/
structure CircuitBreakerConfig where
  failureThreshold : Nat
  recoveryTimeoutMs : Nat
  successThreshold : Nat
  timeoutMs : Nat
deriving DecidableEq, Repr

/-- The configuration the runtime constructs in `AgentRuntime` /
`BackendApiClient` (thresholds 5 and 2, one-minute recovery, 30 s timeout). -/
def defaultBreakerConfig : CircuitBreakerConfig :=
  { failureThreshold := 5, recoveryTimeoutMs := 60000
    successThreshold := 2, timeoutMs := 30000 }

/-- Mutable fields of `class CircuitBreaker`. -/
structure Breaker where
  state : CircuitState
  failureCount : Nat
  successCount : Nat
  nextAttemptTime : Nat
deriving DecidableEq, Repr

/-- Initial breaker: `CLOSED`, all counters zero. -/
def Breaker.init : Breaker :=
  { state := .CLOSED, failureCount := 0, successCount := 0, nextAttemptTime := 0 }

/-- The recording filter in `CircuitBreaker.execute`:
`if (!status || status >= 500) this.onFailure(error)`.
JavaScript `!status` is true for `undefined` and for `0`. -/
def countsAsBreakerFailure (status : Option Nat) : Bool :=
  match status with
  | none => true
  | some n => n == 0 || 500 ≤ n

/-- Source of `CircuitBreaker.tripCircuit`: move to `OPEN`, zero both
counters, set `nextAttemptTime = now + recoveryTimeoutMs`. -/
def Breaker.tripCircuit (cfg : CircuitBreakerConfig) (now : Nat) (_b : Breaker) : Breaker :=
  { state := .OPEN, failureCount := 0, successCount := 0
    nextAttemptTime := now + cfg.recoveryTimeoutMs }

/-- Source of `CircuitBreaker.onSuccess`: always zero `failureCount`; in
`HALF_OPEN`, bump `successCount` and close the circuit once it reaches
`successThreshold`. -/
def Breaker.onSuccess (cfg : CircuitBreakerConfig) (b : Breaker) : Breaker :=
  let b1 : Breaker := { b with failureCount := 0 }
  if b1.state = .HALF_OPEN then
    let sc := b1.successCount + 1
    if cfg.successThreshold ≤ sc then
      { b1 with state := .CLOSED, successCount := 0 }
    else
      { b1 with successCount := sc }
  else b1

/-- Source of `CircuitBreaker.onFailure`: bump `failureCount`; trip the
circuit when in `HALF_OPEN`, or when the count reaches `failureThreshold`. -/
def Breaker.onFailure (cfg : CircuitBreakerConfig) (now : Nat) (b : Breaker) : Breaker :=
  let b1 : Breaker := { b with failureCount := b.failureCount + 1 }
  if b1.state = .HALF_OPEN then
    b1.tripCircuit cfg now
  else if cfg.failureThreshold ≤ b1.failureCount then
    b1.tripCircuit cfg now
  else b1

/-- Outcome of the inner callable passed to `CircuitBreaker.execute`
(including the breaker-imposed timeout, which surfaces as an error with no
status). -/
inductive ExecOutcome (α : Type) where
  | ok (a : α)
  | err (e : HttpErr)
deriving DecidableEq, Repr

/-- Result of a call issued through the breaker: the callable's value, a
fast-fail `CircuitBreakerOpenError`, or the callable's own error re-thrown. -/
inductive CallResult (α : Type) where
  | ok (a : α)
  | circuitOpen
  | failed (e : HttpErr)
deriving DecidableEq, Repr

/-- Source of `CircuitBreaker.execute`: fail fast while `OPEN` before
`nextAttemptTime`; move `OPEN → HALF_OPEN` on the first call after it; run
the callable; `onSuccess` on success; `onFailure` only for errors passing
`countsAsBreakerFailure`; re-throw the error either way. -/
def Breaker.execute (cfg : CircuitBreakerConfig) (now : Nat) (b : Breaker)
    (outcome : ExecOutcome α) : CallResult α × Breaker :=
  if b.state = .OPEN ∧ now < b.nextAttemptTime then
    (.circuitOpen, b)
  else
    let b1 : Breaker :=
      if b.state = .OPEN then { b with state := .HALF_OPEN, successCount := 0 } else b
    match outcome with
    | .ok a => (.ok a, b1.onSuccess cfg)
    | .err e =>
      if countsAsBreakerFailure e.status then
        (.failed e, b1.onFailure cfg now)
      else
        (.failed e, b1)

/-- Transient failure as the specification words it for claim C3:
status ≥ 500, status 429, or no status at all (timeout / network error). -/
def specTransientStatus (status : Option Nat) : Prop :=
  status = none ∨ ∃ n, status = some n ∧ (500 ≤ n ∨ n = 429)

instance (status : Option Nat) : Decidable (specTransientStatus status) := by
  unfold specTransientStatus
  cases status with
  | none => exact .isTrue (Or.inl rfl)
  | some n =>
    by_cases h : 500 ≤ n ∨ n = 429
    · exact .isTrue (Or.inr ⟨n, rfl, h⟩)
    · refine .isFalse ?_
      rintro (hc | ⟨m, hm, hmc⟩)
      · exact Option.noConfusion hc
      · cases Option.some.inj hm
        exact h hmc

/-- A breaker in `HALF_OPEN`, as reached by `OPEN → HALF_OPEN` recovery
(probe admitted, counters cleared). -/
def halfOpenProbe : Breaker :=
  { state := .HALF_OPEN, failureCount := 0, successCount := 0, nextAttemptTime := 0 }

/-- Sequence of calls issued through one breaker: each element pairs the clock
value at the call with the inner callable's outcome; the fold threads the
breaker state through `CircuitBreaker.execute`. -/
def Breaker.run (cfg : CircuitBreakerConfig) (evs : List (Nat × ExecOutcome Unit))
    (b : Breaker) : Breaker :=
  evs.foldl (fun s ev => (Breaker.execute cfg ev.1 s ev.2).2) b

/-- Number of breaker-counted failures in a call sequence since the most
recent success (a success resets the tally, starting from `n`). -/
def countedFailuresSinceSuccess (evs : List (Nat × ExecOutcome Unit)) (n : Nat) : Nat :=
  List.foldl
    (fun m ev =>
      match ev.2 with
      | .ok _ => 0
      | .err e => if countsAsBreakerFailure e.status then m + 1 else m)
    n evs

/-! ## Retry policy (`src/http/decorators/LoggingHttpClient.ts`,
`ExponentialBackoffRetryPolicy.execute`; textually identical logic in
`withRetry` of `src/api/BackendApiClient.ts`) -/

/-- The no-retry test in the retry loop:
`status && status >= 400 && status < 500 && status !== 429`
(JavaScript truthiness makes a 0 status fall through to retry). -/
def isNonRetryableStatus (status : Option Nat) : Bool :=
  match status with
  | none => false
  | some n => !(n == 0) && decide (400 ≤ n) && decide (n < 500) && !(n == 429)

/-- Observable behaviour of one run of the retry loop: the value returned or
error thrown, the number of attempts actually made, and the sleeps performed
between attempts (in order). -/
structure RetryTrace (α : Type) where
  result : Except HttpErr α
  attemptsMade : Nat
  sleeps : List Nat
deriving Repr

/-- Body of the retry loop of `ExponentialBackoffRetryPolicy.execute` /
`withRetry`, indexed by the attempt counter: try `f attempt`; on a
non-retryable 4xx re-throw at once; otherwise, if attempts remain, sleep
`backoffMs · 2 ^ (attempt − 1)` and continue; after the last attempt re-throw
the last error. -/
def retryLoop (f : Nat → Except HttpErr α) (maxRetries backoffMs : Nat)
    (attempt : Nat) : RetryTrace α :=
  match f attempt with
  | .ok a => { result := .ok a, attemptsMade := attempt, sleeps := [] }
  | .error e =>
    if isNonRetryableStatus e.status then
      { result := .error e, attemptsMade := attempt, sleeps := [] }
    else if h : attempt < maxRetries then
      let rest := retryLoop f maxRetries backoffMs (attempt + 1)
      { rest with sleeps := backoffMs * 2 ^ (attempt - 1) :: rest.sleeps }
    else
      { result := .error e, attemptsMade := attempt, sleeps := [] }
termination_by maxRetries - attempt

/-- Source of `withRetry` / `ExponentialBackoffRetryPolicy.execute`: the loop
starts at attempt 1. -/
def withRetry (f : Nat → Except HttpErr α) (maxRetries backoffMs : Nat) : RetryTrace α :=
  retryLoop f maxRetries backoffMs 1

/-- Test fixture: attempts 1 and 2 fail with 503, attempt 3 (and later)
succeeds. -/
def flaky503 : Nat → Except HttpErr Nat := fun k =>
  if k < 3 then Except.error ⟨some 503, "Service Unavailable"⟩ else Except.ok 42

/-! ## Control-plane client operations (`src/api/BackendApiClient.ts`)

Each operation wraps one call through the resilient HTTP chain in
`try`/`catch` and maps any raised error to a sentinel value. The chain's
outcome is a `CallResult`: a decoded value, a `CircuitBreakerOpenError`, or a
structured `HttpError` / transport error. Fields of the wire records that the
verified operations never touch (`workers`, `limits`, `version_info`, task
`payload`, workspace credential strings) are omitted as opaque. -/

/-- Wire record `AgentConfigResponse` (scalar fields and version). -/
structure AgentConfigResponse where
  heartbeat_interval_ms : Nat
  task_poll_interval_ms : Nat
  max_concurrent_tasks : Nat
  version : String
deriving DecidableEq, Repr

/-- Wire record `AgentTask` (the `payload` object is opaque and omitted). -/
structure AgentTask where
  id : String
  type : String
  scheduled_at : String
  priority : Int
deriving DecidableEq, Repr

/-- Wire record `GetTasksResponse` with the piggybacked config. -/
structure GetTasksResponse where
  tasks : List AgentTask
  config : Option AgentConfigResponse
deriving DecidableEq, Repr

/-- Wire record `CreateTaskResponse` (`status` is `pending` or
`already_pending`). -/
structure CreateTaskResponse where
  task_id : String
  status : String
deriving DecidableEq, Repr

/-- Claim endpoint response shape `{ claimed: boolean; task?: AgentTask }`. -/
structure ClaimResponse where
  claimed : Bool
  task : Option AgentTask
deriving DecidableEq, Repr

/-- Source of `BackendApiClient.authenticate`: store the returned config
version and report `true`; any raised error is caught and reported as
`false`, leaving the version store untouched. -/
def authenticateOp (r : CallResult AgentConfigResponse) (storedVersion : Option String) :
    Bool × Option String :=
  match r with
  | .ok cfg => (true, some cfg.version)
  | .circuitOpen => (false, storedVersion)
  | .failed _ => (false, storedVersion)

/-- Source of `BackendApiClient.getConfig`: the decoded config, or `null` on
any raised error. -/
def getConfigOp (r : CallResult AgentConfigResponse) : Option AgentConfigResponse :=
  match r with
  | .ok cfg => some cfg
  | .circuitOpen => none
  | .failed _ => none

/-- Source of `BackendApiClient.getWorkspaceConfig`: the decoded record
(opaque here), or `null` on any raised error. -/
def getWorkspaceConfigOp {W : Type} (r : CallResult W) : Option W :=
  match r with
  | .ok w => some w
  | .circuitOpen => none
  | .failed _ => none

/-- Source of `BackendApiClient.getTasks`: on success, store the piggybacked
config version when present and return the tasks; on any raised error return
`{ tasks: [] }` with no config and the version store untouched. -/
def getTasksOp (r : CallResult GetTasksResponse) (storedVersion : Option String) :
    GetTasksResponse × Option String :=
  match r with
  | .ok d =>
    match d.config with
    | some cfg => ({ tasks := d.tasks, config := some cfg }, some cfg.version)
    | none => ({ tasks := d.tasks, config := none }, storedVersion)
  | .circuitOpen => ({ tasks := [], config := none }, storedVersion)
  | .failed _ => ({ tasks := [], config := none }, storedVersion)

/-- Source of `BackendApiClient.createTask`: the decoded response, or `null`
on any raised error. -/
def createTaskOp (r : CallResult CreateTaskResponse) : Option CreateTaskResponse :=
  match r with
  | .ok d => some d
  | .circuitOpen => none
  | .failed _ => none

/-- Source of `BackendApiClient.claimTask`: the task when `claimed` is true
(`data.task || null`), `null` on a rejected claim, and `null` on any raised
error. -/
def claimTaskOp (r : CallResult ClaimResponse) : Option AgentTask :=
  match r with
  | .ok d => if d.claimed then d.task else none
  | .circuitOpen => none
  | .failed _ => none

/-- Source of `BackendApiClient.completeTask`: `true` on success, `false` on
any raised error (the response body is ignored). -/
def completeTaskOp (r : CallResult Unit) : Bool :=
  match r with
  | .ok _ => true
  | .circuitOpen => false
  | .failed _ => false

/-- Source of `BackendApiClient.failTask`: `true` on success, `false` on any
raised error. -/
def failTaskOp (r : CallResult Unit) : Bool :=
  match r with
  | .ok _ => true
  | .circuitOpen => false
  | .failed _ => false

/-- Source of `BackendApiClient.sendSignals`: `true` on success, `false` on
any raised error. -/
def sendSignalsOp (r : CallResult Unit) : Bool :=
  match r with
  | .ok _ => true
  | .circuitOpen => false
  | .failed _ => false

/-! ## Task dispatcher (`src/runtime/AgentRuntime.ts`, `executeTask`)

The control-plane calls issued while executing one claimed task. Every
`BackendApiClient` operation used inside `executeTask` catches its own errors
(see the operations above), so the only source of an exception in the `try`
block is `taskExecutor.execute`; the cancellation token is consulted after the
handler returns and again in the `catch` handler. -/

/-- One outbound control-plane call issued by `executeTask`. -/
inductive TaskApiCall where
  | claimT (id : String)
  | signalStarted (id : String)
  | completeT (id : String)
  | failT (id : String) (message : String) (retryable : Bool)
  | signalCompleted (id : String)
  | signalFailed (id : String)
deriving DecidableEq, Repr

/-- Outcome of `taskExecutor.execute` for one task, together with the state of
the cancellation token at the moment `executeTask` consults it. -/
inductive HandlerOutcome where
  | ok (aborted : Bool)
  | raised (message : String) (aborted : Bool)
deriving DecidableEq, Repr

/-- Source of `AgentRuntime.executeTask`, projected onto the control-plane
calls it issues: claim; on a null claim return silently; otherwise signal
`task_started`, run the handler, and report exactly per the
success / cancelled / failed branches. -/
def executeTaskCalls (id : String) (claimSucceeded : Bool) (h : HandlerOutcome) :
    List TaskApiCall :=
  if claimSucceeded then
    TaskApiCall.claimT id :: TaskApiCall.signalStarted id ::
      (match h with
       | .ok aborted =>
         if aborted then
           [TaskApiCall.failT id "Task cancelled during shutdown" false]
         else
           [TaskApiCall.completeT id, TaskApiCall.signalCompleted id]
       | .raised msg aborted =>
         if aborted then
           [TaskApiCall.failT id "Task cancelled during shutdown" false]
         else
           [TaskApiCall.failT id msg true, TaskApiCall.signalFailed id])
  else
    [TaskApiCall.claimT id]

/-- Does this call report the task (complete or fail) for the given id? -/
def isReportFor (id : String) : TaskApiCall → Bool
  | .completeT i => i == id
  | .failT i _ _ => i == id
  | _ => false

/-! ## Runtime admission state (`src/runtime/AgentRuntime.ts`)

The in-flight bookkeeping shared by `pollAndExecuteTasks`, `executeTask` and
`updateIntervals`: the `activeTasks` set and the `maxConcurrentTasks` cap. A
poll tick computes `availableSlots = maxConcurrentTasks − activeTasks.size`
before claiming, admits at most that many tasks, and adds each task whose
claim succeeds; a finished task is removed in the `finally` block; a config
application simply overwrites the cap. -/

/-- Admission-relevant state of the runtime. -/
structure RuntimeState where
  maxConcurrentTasks : Nat
  activeTasks : Finset String
deriving DecidableEq

/-- Source of the admission part of `pollAndExecuteTasks`: no-op when no slot
is free, otherwise admit up to `availableSlots` of the polled tasks, adding
exactly those whose claim succeeds. -/
def pollStep (s : RuntimeState) (tasks : List String) (claimOk : String → Bool) :
    RuntimeState :=
  let availableSlots := s.maxConcurrentTasks - s.activeTasks.card
  if availableSlots = 0 then s
  else
    { s with
      activeTasks :=
        (tasks.take availableSlots).foldl
          (fun acc id => if claimOk id then insert id acc else acc)
          s.activeTasks }

/-- Interleavable events of the dispatcher, the task executions and the
supervisor. -/
inductive RtEvent where
  | pollTick (tasks : List String) (claimOk : String → Bool)
  | taskFinish (id : String)
  | applyConfig (newMax : Nat)

/-- One event of the runtime: a poll tick admits tasks, a finishing task is
removed from `activeTasks` (the `finally` block of `executeTask`), and
`updateIntervals` overwrites `maxConcurrentTasks` from the new config. -/
def rtStep (s : RuntimeState) (e : RtEvent) : RuntimeState :=
  match e with
  | .pollTick tasks claimOk => pollStep s tasks claimOk
  | .taskFinish id => { s with activeTasks := s.activeTasks.erase id }
  | .applyConfig newMax => { s with maxConcurrentTasks := newMax }

/-- Run of the runtime over a list of events. -/
def rtRun (s : RuntimeState) (es : List RtEvent) : RuntimeState :=
  es.foldl rtStep s

/-- Startup state: no task in flight, cap from the initial configuration. -/
def rtInit (max0 : Nat) : RuntimeState :=
  { maxConcurrentTasks := max0, activeTasks := ∅ }

/-! ## Polling backoff (`src/runtime/AgentRuntime.ts`)

State read and written by `startTaskPolling`, `restartTaskPollingWithBackoff`,
`resetTaskPollingInterval` and the scheduling branches of
`pollAndExecuteTasks`. `timerPeriodMs` is the period of the live `setInterval`
timer; `backendTaskPollMs` is `backendConfig?.task_poll_interval_ms`. -/

/-- Scheduling state of the task-poll loop. -/
structure PollState where
  backendTaskPollMs : Option Nat
  currentTaskPollIntervalMs : Nat
  consecutivePollingFailures : Nat
  timerPeriodMs : Nat
deriving DecidableEq, Repr

/-- Source of `startTaskPolling`: the new timer period is
`backendConfig?.task_poll_interval_ms ?? currentTaskPollIntervalMs`. -/
def PollState.startTaskPolling (s : PollState) : PollState :=
  { s with timerPeriodMs := s.backendTaskPollMs.getD s.currentTaskPollIntervalMs }

/-- Source of `restartTaskPollingWithBackoff`: compute
`min(base · 2 ^ consecutivePollingFailures, 1 h)`, store it in
`currentTaskPollIntervalMs`, and restart the timer via `startTaskPolling`. -/
def PollState.restartTaskPollingWithBackoff (s : PollState) : PollState :=
  let baseDelay := s.backendTaskPollMs.getD s.currentTaskPollIntervalMs
  let backoffDelay := min (baseDelay * 2 ^ s.consecutivePollingFailures) 3600000
  PollState.startTaskPolling { s with currentTaskPollIntervalMs := backoffDelay }

/-- Source of `resetTaskPollingInterval`: restore the normal interval
(`backendConfig?.task_poll_interval_ms ?? 300000`) and restart the timer when
the current interval differs. -/
def PollState.resetTaskPollingInterval (s : PollState) : PollState :=
  let normalInterval := s.backendTaskPollMs.getD 300000
  if s.currentTaskPollIntervalMs ≠ normalInterval then
    PollState.startTaskPolling { s with currentTaskPollIntervalMs := normalInterval }
  else s

/-- Scheduling effect of one tick of `pollAndExecuteTasks`: a successful tick
(including the at-capacity no-op) clears the failure counter and restores the
normal interval if it had backed off; a tick whose `try` block throws bumps
the counter and restarts polling with backoff. -/
def pollTickSchedule (s : PollState) (tickSucceeded : Bool) : PollState :=
  if tickSucceeded then
    if 0 < s.consecutivePollingFailures then
      PollState.resetTaskPollingInterval { s with consecutivePollingFailures := 0 }
    else s
  else
    PollState.restartTaskPollingWithBackoff
      { s with consecutivePollingFailures := s.consecutivePollingFailures + 1 }

/-- Poll-scheduling state right after the initial config load: backend config
present with a 5-minute `task_poll_interval_ms`, timer running at it. -/
def pollStateBase : PollState :=
  { backendTaskPollMs := some 300000, currentTaskPollIntervalMs := 300000
    consecutivePollingFailures := 0, timerPeriodMs := 300000 }

/-! ## Local configuration (`src/config.ts`) -/

/-- Environment-derived configuration; interval fields are JavaScript numbers
compared against ranges, modelled as integers. Optional passthrough
credential fields are opaque and omitted. -/
structure AgentConfig where
  apiKey : String
  apiUrl : String
  pollIntervalMs : Int
  heartbeatIntervalMs : Int
  maxConcurrentTasks : Int
deriving DecidableEq, Repr

/-- JavaScript `String.prototype.startsWith`, modelled on the character list
underlying the string. -/
def strStartsWith (s p : String) : Bool :=
  p.data.isPrefixOf s.data

/-- Source of `validateConfig`: collect one error message per failed check and
report `valid := errors.length === 0`. The key check is
`!config.apiKey || !config.apiKey.startsWith(agnt_)`. -/
def validateConfig (c : AgentConfig) : Bool × List String :=
  let errors : List String :=
    (if c.apiKey = "" ∨ ¬ strStartsWith c.apiKey "agnt_" then
       ["Invalid ADNO_API_KEY (must start with \"agnt_\")"] else [])
    ++ (if c.apiUrl = "" ∨ ¬ strStartsWith c.apiUrl "http" then
       ["Invalid ADNO_API_URL (must be a valid URL)"] else [])
    ++ (if c.pollIntervalMs < 5000 ∨ 300000 < c.pollIntervalMs then
       ["POLL_INTERVAL_MS must be between 5000 and 300000"] else [])
    ++ (if c.heartbeatIntervalMs < 10000 ∨ 600000 < c.heartbeatIntervalMs then
       ["HEARTBEAT_INTERVAL_MS must be between 10000 and 600000"] else [])
    ++ (if c.maxConcurrentTasks < 1 ∨ 10 < c.maxConcurrentTasks then
       ["MAX_CONCURRENT_TASKS must be between 1 and 10"] else [])
  (errors.isEmpty, errors)

/-- Lowercase hexadecimal digit. -/
def isLowerHexDigit (ch : Char) : Bool :=
  ch.isDigit || (decide ('a' ≤ ch) && decide (ch ≤ 'f'))

/-- Modelled from the spec: the normative credential shape of §6 —
`agnt_` followed by exactly 32 lowercase hexadecimal characters
(the regex the specification adopts; the TypeScript `validateConfig` under
verification checks only the prefix). -/
def specApiKeyPattern (s : String) : Bool :=
  strStartsWith s "agnt_" && (s.data.drop 5).length == 32
    && (s.data.drop 5).all isLowerHexDigit

/-- Environment of scenario S6: a well-formed URL and in-range intervals, but
the short key `agnt_xxxx`. -/
def shortKeyConfig : AgentConfig :=
  { apiKey := "agnt_xxxx", apiUrl := "https://app.adno.dev"
    pollIntervalMs := 30000, heartbeatIntervalMs := 60000, maxConcurrentTasks := 3 }

/-- Unfolding of the Boolean recording filter into the statuses it covers. -/
theorem countsAsBreakerFailure_iff (s : Option Nat) :
    countsAsBreakerFailure s = true ↔
      (s = none ∨ s = some 0 ∨ ∃ n, s = some n ∧ 500 ≤ n) := by
  cases s with
  | none => simp [countsAsBreakerFailure]
  | some n =>
    simp only [countsAsBreakerFailure, Bool.or_eq_true, beq_iff_eq, decide_eq_true_eq]
    constructor
    · rintro (h0 | h5)
      · exact Or.inr (Or.inl (by simp [h0]))
      · exact Or.inr (Or.inr ⟨n, rfl, h5⟩)
    · rintro (h | h | ⟨m, hm, hmc⟩)
      · exact Option.noConfusion h
      · exact Or.inl (Option.some.inj h)
      · cases Option.some.inj hm
        exact Or.inr hmc

/-- Claim C3, counterexample: a 429 failure is Transient in the words of the
specification, yet `CircuitBreaker.execute` does not record it — the failure
count of a fresh breaker stays 0 instead of rising to 1. The recording filter
in the source is `!status || status >= 500`, which excludes 429. -/
theorem breaker_429_not_counted_cex :
    specTransientStatus (some 429) ∧
    (Breaker.execute defaultBreakerConfig 0 Breaker.init
        (ExecOutcome.err ⟨some 429, "Too Many Requests"⟩ : ExecOutcome Unit)).2.failureCount
      = 0 := by
  constructor
  · exact Or.inr ⟨429, rfl, Or.inr rfl⟩
  · rfl

/-- Claim C3 (amended): a failure of a call wrapped by `CircuitBreaker.execute`
increments the failure count if and only if its status is ≥ 500, or 0, or
absent (timeout / network error); every 4xx failure — 429 included — leaves
the breaker completely unchanged. Stated for a `CLOSED` breaker below its
failure threshold, where the increment is observable (at the threshold the
trip resets the counter). -/
theorem breaker_counts_only_server_and_transport_failures
    (cfg : CircuitBreakerConfig) (now : Nat) (b : Breaker) (e : HttpErr)
    (hclosed : b.state = CircuitState.CLOSED)
    (hbelow : b.failureCount + 1 < cfg.failureThreshold) :
    ((Breaker.execute cfg now b (ExecOutcome.err e : ExecOutcome Unit)).2.failureCount
        = b.failureCount + 1
      ↔ (e.status = none ∨ e.status = some 0 ∨ ∃ n, e.status = some n ∧ 500 ≤ n))
    ∧ (∀ n, e.status = some n → 0 < n → n < 500 →
        (Breaker.execute cfg now b (ExecOutcome.err e : ExecOutcome Unit)).2 = b) := by
  obtain ⟨st, fc, sc, nat⟩ := b
  dsimp only at hclosed hbelow ⊢
  subst hclosed
  constructor
  · rw [← countsAsBreakerFailure_iff]
    by_cases hc : countsAsBreakerFailure e.status = true
    · simp [Breaker.execute, Breaker.onFailure, Breaker.tripCircuit, hc]
      rw [if_neg (by omega : ¬ cfg.failureThreshold ≤ fc + 1)]
    · have hc' : countsAsBreakerFailure e.status = false := by
        revert hc
        cases countsAsBreakerFailure e.status <;> simp
      simp only [Breaker.execute]
      simp [hc']
  · intro n hn h0 h5
    have hc : countsAsBreakerFailure e.status = false := by
      rw [hn]
      simp only [countsAsBreakerFailure, Bool.or_eq_false_iff, beq_eq_false_iff_ne,
        ne_eq, decide_eq_false_iff_not]
      omega
    simp [Breaker.execute, hc]

/-- Witness for the amended C3: a 503 failure on a fresh breaker raises the
failure count to 1, and a 404 failure leaves the breaker untouched. -/
theorem breaker_counts_only_server_and_transport_failures_witness :
    ((Breaker.execute defaultBreakerConfig 0 Breaker.init
        (ExecOutcome.err ⟨some 503, "Service Unavailable"⟩ : ExecOutcome Unit)).2.failureCount
      = Breaker.init.failureCount + 1) ∧
    ((Breaker.execute defaultBreakerConfig 0 Breaker.init
        (ExecOutcome.err ⟨some 404, "Not Found"⟩ : ExecOutcome Unit)).2 = Breaker.init) := by
  constructor
  · exact (breaker_counts_only_server_and_transport_failures defaultBreakerConfig 0
      Breaker.init ⟨some 503, "Service Unavailable"⟩ rfl (by decide)).1.mpr
      (Or.inr (Or.inr ⟨503, rfl, by omega⟩))
  · exact (breaker_counts_only_server_and_transport_failures defaultBreakerConfig 0
      Breaker.init ⟨some 404, "Not Found"⟩ rfl (by decide)).2 404 rfl (by omega)
      (by omega)

/-- Claim C4, counterexample: a 404 failure while the breaker is `HALF_OPEN`
does not reopen the circuit — the recording filter skips all 4xx errors, so
`onFailure` never runs and the breaker stays `HALF_OPEN`, contradicting
"`HALF_OPEN → OPEN` on any failure". -/
theorem breaker_halfopen_4xx_cex :
    (Breaker.execute defaultBreakerConfig 0 halfOpenProbe
        (ExecOutcome.err ⟨some 404, "Not Found"⟩ : ExecOutcome Unit)).2.state
      ≠ CircuitState.OPEN := by
  intro h
  exact CircuitState.noConfusion h

/-- Claim C4 (amended): while `HALF_OPEN`, a failure whose status passes the
recording filter (≥ 500, 0, or absent) reopens the circuit; a failure with any
other 4xx status leaves the breaker unchanged in `HALF_OPEN`. -/
theorem breaker_halfopen_failure_reopens
    (cfg : CircuitBreakerConfig) (now : Nat) (b : Breaker) (e : HttpErr)
    (hhalf : b.state = CircuitState.HALF_OPEN) :
    (countsAsBreakerFailure e.status = true →
      (Breaker.execute cfg now b (ExecOutcome.err e : ExecOutcome Unit)).2.state
        = CircuitState.OPEN)
    ∧ (countsAsBreakerFailure e.status = false →
      (Breaker.execute cfg now b (ExecOutcome.err e : ExecOutcome Unit)).2 = b) := by
  obtain ⟨st, fc, sc, nat⟩ := b
  dsimp only at hhalf ⊢
  subst hhalf
  constructor
  · intro hc
    simp [Breaker.execute, Breaker.onFailure, Breaker.tripCircuit, hc]
  · intro hc
    simp [Breaker.execute, hc]

/-- Witness for the amended C4: from `HALF_OPEN`, a 503 failure reopens the
circuit and a 404 failure leaves it `HALF_OPEN`. -/
theorem breaker_halfopen_failure_reopens_witness :
    ((Breaker.execute defaultBreakerConfig 0 halfOpenProbe
        (ExecOutcome.err ⟨some 503, "Service Unavailable"⟩ : ExecOutcome Unit)).2.state
      = CircuitState.OPEN) ∧
    ((Breaker.execute defaultBreakerConfig 0 halfOpenProbe
        (ExecOutcome.err ⟨some 404, "Not Found"⟩ : ExecOutcome Unit)).2 = halfOpenProbe) := by
  constructor
  · exact (breaker_halfopen_failure_reopens defaultBreakerConfig 0 halfOpenProbe
      ⟨some 503, "Service Unavailable"⟩ rfl).1 (by decide)
  · exact (breaker_halfopen_failure_reopens defaultBreakerConfig 0 halfOpenProbe
      ⟨some 404, "Not Found"⟩ rfl).2 (by decide)

/-- Computation of one `execute` step from a `CLOSED` breaker. -/
theorem execute_from_closed (cfg : CircuitBreakerConfig) (now : Nat) (b : Breaker)
    (out : ExecOutcome Unit) (hb : b.state = CircuitState.CLOSED) :
    (Breaker.execute cfg now b out).2 =
      match out with
      | .ok _ => { b with failureCount := 0 }
      | .err e =>
        if countsAsBreakerFailure e.status then
          if cfg.failureThreshold ≤ b.failureCount + 1 then
            Breaker.tripCircuit cfg now b
          else { b with failureCount := b.failureCount + 1 }
        else b := by
  obtain ⟨st, fc, sc, nat⟩ := b
  dsimp only at hb ⊢
  subst hb
  cases out with
  | ok a => simp [Breaker.execute, Breaker.onSuccess]
  | err e =>
    by_cases hc : countsAsBreakerFailure e.status = true
    · by_cases ht : cfg.failureThreshold ≤ fc + 1 <;>
        simp [Breaker.execute, Breaker.onFailure, Breaker.tripCircuit, hc, ht]
    · have hc' : countsAsBreakerFailure e.status = false := by
        revert hc
        cases countsAsBreakerFailure e.status <;> simp
      simp [Breaker.execute, hc']

/-- Source fact: `onSuccess` zeroes the failure count in every state. -/
theorem onSuccess_failureCount (cfg : CircuitBreakerConfig) (b : Breaker) :
    (Breaker.onSuccess cfg b).failureCount = 0 := by
  simp only [Breaker.onSuccess]
  split
  · split <;> rfl
  · rfl

/-- Any admitted successful execution zeroes the failure count, whatever the
state (the fast-fail path while `OPEN` never runs the callable and is the only
exclusion). -/
theorem execute_ok_resets_failureCount (cfg : CircuitBreakerConfig) (now : Nat)
    (b : Breaker) (hadm : ¬ (b.state = CircuitState.OPEN ∧ now < b.nextAttemptTime)) :
    (Breaker.execute cfg now b (ExecOutcome.ok () : ExecOutcome Unit)).2.failureCount
      = 0 := by
  simp only [Breaker.execute]
  rw [if_neg hadm]
  exact onSuccess_failureCount cfg _

/-- While a breaker stays `CLOSED` along a call sequence, its failure count
equals the number of counted failures since the last success. -/
theorem run_closed_failureCount (cfg : CircuitBreakerConfig) :
    ∀ (evs : List (Nat × ExecOutcome Unit)) (b : Breaker),
      b.state = CircuitState.CLOSED →
      (∀ k, k ≤ evs.length → (Breaker.run cfg (evs.take k) b).state = CircuitState.CLOSED) →
      (Breaker.run cfg evs b).failureCount
        = countedFailuresSinceSuccess evs b.failureCount := by
  intro evs
  induction evs with
  | nil => intro b _ _; rfl
  | cons ev rest ih =>
    intro b hb hcl
    have hstep : (Breaker.execute cfg ev.1 b ev.2).2.state = CircuitState.CLOSED := by
      have h1 := hcl 1 (by simp)
      simpa [Breaker.run] using h1
    have hrest : ∀ k, k ≤ rest.length →
        (Breaker.run cfg (rest.take k) (Breaker.execute cfg ev.1 b ev.2).2).state
          = CircuitState.CLOSED := by
      intro k hk
      have h2 := hcl (k + 1) (by simpa using Nat.succ_le_succ hk)
      simpa [Breaker.run, List.take_succ_cons] using h2
    have hmain : Breaker.run cfg (ev :: rest) b
        = Breaker.run cfg rest (Breaker.execute cfg ev.1 b ev.2).2 := by
      simp [Breaker.run]
    rw [hmain, ih _ hstep hrest]
    rw [execute_from_closed cfg ev.1 b ev.2 hb] at hstep ⊢
    cases hev : ev.2 with
    | ok a => simp [hev, countedFailuresSinceSuccess]
    | err e =>
      by_cases hc : countsAsBreakerFailure e.status = true
      · rw [hev] at hstep
        simp only [hc, if_pos] at hstep
        by_cases ht : cfg.failureThreshold ≤ b.failureCount + 1
        · rw [if_pos ht] at hstep
          exact absurd hstep (by simp [Breaker.tripCircuit])
        · rw [if_neg ht]
          simp [hev, countedFailuresSinceSuccess, hc]
      · have hc' : countsAsBreakerFailure e.status = false := by
          revert hc
          cases countsAsBreakerFailure e.status <;> simp
        simp [hev, countedFailuresSinceSuccess, hc']

/-- Claim C10: every successful execution through `CircuitBreaker.execute`
(in whatever state, as long as the call is admitted at all — the `OPEN`
fast-fail never runs the callable) resets the failure count to 0, and
consequently a breaker that starts `CLOSED` with a clean count reaches `OPEN`
only once at least `failureThreshold` counted failures have occurred with no
intervening success. -/
theorem breaker_success_resets_and_open_needs_threshold :
    (∀ (cfg : CircuitBreakerConfig) (now : Nat) (b : Breaker),
        ¬ (b.state = CircuitState.OPEN ∧ now < b.nextAttemptTime) →
        (Breaker.execute cfg now b (ExecOutcome.ok () : ExecOutcome Unit)).2.failureCount
          = 0)
    ∧ (∀ (cfg : CircuitBreakerConfig) (evs : List (Nat × ExecOutcome Unit)) (b : Breaker),
        b.state = CircuitState.CLOSED → b.failureCount = 0 →
        (∀ k, k < evs.length →
          (Breaker.run cfg (evs.take k) b).state = CircuitState.CLOSED) →
        (Breaker.run cfg evs b).state = CircuitState.OPEN →
        cfg.failureThreshold ≤ countedFailuresSinceSuccess evs 0) := by
  constructor
  · exact execute_ok_resets_failureCount
  · intro cfg evs b hb hfc hcl hopen
    rcases evs.eq_nil_or_concat with rfl | ⟨l, x, rfl⟩
    · rw [show Breaker.run cfg [] b = b from rfl, hb] at hopen
      exact absurd hopen (by simp)
    · rw [List.concat_eq_append] at hopen hcl ⊢
      have hlen : l.length < (l ++ [x]).length := by simp
      have hsl : (Breaker.run cfg l b).state = CircuitState.CLOSED := by
        have h := hcl l.length hlen
        rwa [List.take_left] at h
      have hfcl : (Breaker.run cfg l b).failureCount
          = countedFailuresSinceSuccess l 0 := by
        have h := run_closed_failureCount cfg l b hb ?_
        · rwa [hfc] at h
        · intro k hk
          have h2 := hcl k (by simpa using Nat.lt_succ_of_le hk)
          rwa [List.take_append_of_le_length hk] at h2
      have hstep : Breaker.run cfg (l ++ [x]) b
          = (Breaker.execute cfg x.1 (Breaker.run cfg l b) x.2).2 := by
        simp [Breaker.run, List.foldl_append]
      rw [hstep, execute_from_closed cfg x.1 (Breaker.run cfg l b) x.2 hsl] at hopen
      cases hx : x.2 with
      | ok a =>
        rw [hx] at hopen
        dsimp only at hopen
        rw [hsl] at hopen
        exact CircuitState.noConfusion hopen
      | err e =>
        rw [hx] at hopen
        dsimp only at hopen
        by_cases hc : countsAsBreakerFailure e.status = true
        · rw [if_pos hc] at hopen
          by_cases ht : cfg.failureThreshold ≤ (Breaker.run cfg l b).failureCount + 1
          · have hcount : countedFailuresSinceSuccess (l ++ [x]) 0
                = countedFailuresSinceSuccess l 0 + 1 := by
              simp [countedFailuresSinceSuccess, List.foldl_append, hx, hc]
            rw [hcount]
            rw [hfcl] at ht
            exact ht
          · rw [if_neg ht] at hopen
            dsimp only at hopen
            rw [hsl] at hopen
            exact CircuitState.noConfusion hopen
        · rw [if_neg hc] at hopen
          rw [hsl] at hopen
          exact CircuitState.noConfusion hopen

/-- Witness for C10: on the default configuration, a successful call on a
fresh breaker leaves the count at 0, and the sequence of five 503 failures
that drives a fresh breaker `OPEN` indeed contains five counted failures
since the last success. -/
theorem breaker_success_resets_and_open_needs_threshold_witness :
    ((Breaker.execute defaultBreakerConfig 0 Breaker.init
        (ExecOutcome.ok () : ExecOutcome Unit)).2.failureCount = 0)
    ∧ defaultBreakerConfig.failureThreshold ≤ countedFailuresSinceSuccess
        (List.replicate 5
          ((0 : Nat), (ExecOutcome.err ⟨some 503, "Service Unavailable"⟩ : ExecOutcome Unit)))
        0 := by
  constructor
  · exact breaker_success_resets_and_open_needs_threshold.1 defaultBreakerConfig 0
      Breaker.init (by decide)
  · exact breaker_success_resets_and_open_needs_threshold.2 defaultBreakerConfig
      (List.replicate 5
        ((0 : Nat), (ExecOutcome.err ⟨some 503, "Service Unavailable"⟩ : ExecOutcome Unit)))
      Breaker.init rfl rfl (by decide) (by decide)

/-- Unfolding: a successful attempt stops the retry loop at once. -/
theorem retryLoop_ok (f : Nat → Except HttpErr α) (m b j : Nat) (a : α)
    (hf : f j = Except.ok a) :
    retryLoop f m b j = { result := .ok a, attemptsMade := j, sleeps := [] } := by
  unfold retryLoop
  rw [hf]

/-- Unfolding: a non-retryable 4xx error propagates immediately. -/
theorem retryLoop_err_nonretry (f : Nat → Except HttpErr α) (m b j : Nat) (e : HttpErr)
    (hf : f j = Except.error e) (hnr : isNonRetryableStatus e.status = true) :
    retryLoop f m b j = { result := .error e, attemptsMade := j, sleeps := [] } := by
  unfold retryLoop
  rw [hf]
  simp [hnr]

/-- Unfolding: a retryable error with attempts remaining sleeps
`b · 2 ^ (j − 1)` and continues with the next attempt. -/
theorem retryLoop_err_retry (f : Nat → Except HttpErr α) (m b j : Nat) (e : HttpErr)
    (hf : f j = Except.error e) (hnr : isNonRetryableStatus e.status = false)
    (hlt : j < m) :
    retryLoop f m b j =
      { result := (retryLoop f m b (j + 1)).result
        attemptsMade := (retryLoop f m b (j + 1)).attemptsMade
        sleeps := b * 2 ^ (j - 1) :: (retryLoop f m b (j + 1)).sleeps } := by
  conv_lhs => rw [retryLoop]
  rw [hf]
  simp [hnr, hlt]

/-- Unfolding: a retryable error on the last attempt propagates the error. -/
theorem retryLoop_err_last (f : Nat → Except HttpErr α) (m b j : Nat) (e : HttpErr)
    (hf : f j = Except.error e) (hnr : isNonRetryableStatus e.status = false)
    (hge : ¬ j < m) :
    retryLoop f m b j = { result := .error e, attemptsMade := j, sleeps := [] } := by
  unfold retryLoop
  rw [hf]
  simp [hnr, hge]

/-- Full characterisation of a run of the retry loop started at attempt `j`. -/
theorem retryLoop_spec (f : Nat → Except HttpErr α) (m b : Nat) :
    ∀ (fuel j : Nat), m - j = fuel → 1 ≤ j → j ≤ m →
      j ≤ (retryLoop f m b j).attemptsMade ∧
      (retryLoop f m b j).attemptsMade ≤ m ∧
      (retryLoop f m b j).result = f (retryLoop f m b j).attemptsMade ∧
      (retryLoop f m b j).sleeps
        = (List.range' (j - 1) ((retryLoop f m b j).attemptsMade - j)).map
            (fun i => b * 2 ^ i) ∧
      (∀ k, j ≤ k → k < (retryLoop f m b j).attemptsMade →
        ∃ e, f k = Except.error e ∧ isNonRetryableStatus e.status = false) ∧
      ((retryLoop f m b j).attemptsMade < m →
        (∃ a, f (retryLoop f m b j).attemptsMade = Except.ok a) ∨
        (∃ e, f (retryLoop f m b j).attemptsMade = Except.error e
          ∧ isNonRetryableStatus e.status = true)) := by
  intro fuel
  induction fuel with
  | zero =>
    intro j hm0 h1 hjm
    have hjeq : j = m := by omega
    cases hf : f j with
    | ok a =>
      rw [retryLoop_ok f m b j a hf]
      dsimp only
      refine ⟨le_rfl, hjm, hf.symm, by simp, ?_, ?_⟩
      · intro k hk1 hk2
        omega
      · intro hlt
        omega
    | error e =>
      by_cases hnr : isNonRetryableStatus e.status = true
      · rw [retryLoop_err_nonretry f m b j e hf hnr]
        dsimp only
        refine ⟨le_rfl, hjm, hf.symm, by simp, ?_, ?_⟩
        · intro k hk1 hk2
          omega
        · intro hlt
          omega
      · have hnr' : isNonRetryableStatus e.status = false := by
          revert hnr
          cases isNonRetryableStatus e.status <;> simp
        rw [retryLoop_err_last f m b j e hf hnr' (by omega)]
        dsimp only
        refine ⟨le_rfl, hjm, hf.symm, by simp, ?_, ?_⟩
        · intro k hk1 hk2
          omega
        · intro hlt
          omega
  | succ n ih =>
    intro j hmj h1 hjm
    have hjlt : j < m := by omega
    cases hf : f j with
    | ok a =>
      rw [retryLoop_ok f m b j a hf]
      dsimp only
      refine ⟨le_rfl, hjm, hf.symm, by simp, ?_, ?_⟩
      · intro k hk1 hk2
        omega
      · intro _
        exact Or.inl ⟨a, hf⟩
    | error e =>
      by_cases hnr : isNonRetryableStatus e.status = true
      · rw [retryLoop_err_nonretry f m b j e hf hnr]
        dsimp only
        refine ⟨le_rfl, hjm, hf.symm, by simp, ?_, ?_⟩
        · intro k hk1 hk2
          omega
        · intro _
          exact Or.inr ⟨e, hf, hnr⟩
      · have hnr' : isNonRetryableStatus e.status = false := by
          revert hnr
          cases isNonRetryableStatus e.status <;> simp
        rw [retryLoop_err_retry f m b j e hf hnr' hjlt]
        dsimp only
        obtain ⟨ih1, ih2, ih3, ih4, ih5, ih6⟩ := ih (j + 1) (by omega) (by omega) (by omega)
        refine ⟨by omega, ih2, ih3, ?_, ?_, ih6⟩
        · dsimp only
          rw [ih4]
          have hsplit : (retryLoop f m b (j + 1)).attemptsMade - j
              = ((retryLoop f m b (j + 1)).attemptsMade - (j + 1)) + 1 := by
            omega
          rw [hsplit, List.range'_succ, List.map_cons]
          have hjj : j - 1 + 1 = j := by omega
          rw [hjj]
          norm_num
        · intro k hk1 hk2
          rcases Nat.eq_or_lt_of_le hk1 with rfl | hk1'
          · exact ⟨e, hf, hnr'⟩
          · exact ih5 k (by omega) hk2

/-- Claim C7: the retry wrapper makes at most `maxRetries` attempts, every
attempt before the final one failed with a retryable error and was followed by
a sleep of `backoffMs · 2 ^ (attempt − 1)`, the caller receives exactly the
final attempt's outcome (so the last error is propagated when every attempt
fails), and the loop stops before `maxRetries` only on success or on an error
whose status lies in [400, 500) and differs from 429, which propagates with no
further attempt. -/
theorem withRetry_spec (f : Nat → Except HttpErr α) (m b : Nat) (hm : 1 ≤ m) :
    1 ≤ (withRetry f m b).attemptsMade ∧
    (withRetry f m b).attemptsMade ≤ m ∧
    (withRetry f m b).result = f (withRetry f m b).attemptsMade ∧
    (withRetry f m b).sleeps
      = (List.range ((withRetry f m b).attemptsMade - 1)).map (fun i => b * 2 ^ i) ∧
    (∀ k, 1 ≤ k → k < (withRetry f m b).attemptsMade →
      ∃ e, f k = Except.error e ∧ isNonRetryableStatus e.status = false) ∧
    ((withRetry f m b).attemptsMade < m →
      (∃ a, f (withRetry f m b).attemptsMade = Except.ok a) ∨
      (∃ e, f (withRetry f m b).attemptsMade = Except.error e
        ∧ isNonRetryableStatus e.status = true)) ∧
    (∀ st, isNonRetryableStatus st = true ↔
      ∃ n, st = some n ∧ 400 ≤ n ∧ n < 500 ∧ n ≠ 429) := by
  simp only [withRetry]
  have h := retryLoop_spec f m b (m - 1) 1 (by omega) le_rfl hm
  obtain ⟨h1, h2, h3, h4, h5, h6⟩ := h
  refine ⟨h1, h2, h3, ?_, h5, h6, ?_⟩
  · rw [h4, List.range_eq_range']
  · intro st
    cases st with
    | none => simp [isNonRetryableStatus]
    | some n =>
      simp only [isNonRetryableStatus, Bool.and_eq_true, Bool.not_eq_eq_eq_not,
        Bool.not_true, beq_eq_false_iff_ne, ne_eq, decide_eq_true_eq]
      constructor
      · rintro ⟨⟨⟨hz, h4a⟩, h5a⟩, h9⟩
        exact ⟨n, rfl, h4a, h5a, h9⟩
      · rintro ⟨k, hk, hk4, hk5, hk9⟩
        cases Option.some.inj hk
        exact ⟨⟨⟨by omega, hk4⟩, hk5⟩, hk9⟩

/-- Witness for C7: on a server that returns 503 for the first two attempts
and succeeds on the third, the default wrapper (3 attempts, 1000 ms base)
satisfies the characterisation. -/
theorem withRetry_spec_witness :
    1 ≤ (withRetry flaky503 3 1000).attemptsMade ∧
    (withRetry flaky503 3 1000).attemptsMade ≤ 3 ∧
    (withRetry flaky503 3 1000).result = flaky503 (withRetry flaky503 3 1000).attemptsMade ∧
    (withRetry flaky503 3 1000).sleeps
      = (List.range ((withRetry flaky503 3 1000).attemptsMade - 1)).map
          (fun i => 1000 * 2 ^ i) ∧
    (∀ k, 1 ≤ k → k < (withRetry flaky503 3 1000).attemptsMade →
      ∃ e, flaky503 k = Except.error e ∧ isNonRetryableStatus e.status = false) ∧
    ((withRetry flaky503 3 1000).attemptsMade < 3 →
      (∃ a, flaky503 (withRetry flaky503 3 1000).attemptsMade = Except.ok a) ∨
      (∃ e, flaky503 (withRetry flaky503 3 1000).attemptsMade = Except.error e
        ∧ isNonRetryableStatus e.status = true)) ∧
    (∀ st, isNonRetryableStatus st = true ↔
      ∃ n, st = some n ∧ 400 ≤ n ∧ n < 500 ∧ n ≠ 429) :=
  withRetry_spec flaky503 3 1000 (by omega)

/-- Claim C6: none of the control-plane client operations propagates an error
of the underlying HTTP chain (a thrown `HttpError` / transport error, or a
`CircuitBreakerOpenError`): each returns its documented fallback — `false`,
`null`, or an empty task list — instead. -/
theorem client_ops_never_throw :
    (∀ (e : HttpErr) (v : Option String), authenticateOp (.failed e) v = (false, v)) ∧
    (∀ (v : Option String), authenticateOp .circuitOpen v = (false, v)) ∧
    (∀ (e : HttpErr), getConfigOp (.failed e) = none) ∧
    (getConfigOp .circuitOpen = none) ∧
    (∀ (e : HttpErr), getWorkspaceConfigOp (CallResult.failed e : CallResult Unit) = none) ∧
    (getWorkspaceConfigOp (CallResult.circuitOpen : CallResult Unit) = none) ∧
    (∀ (e : HttpErr) (v : Option String),
      getTasksOp (.failed e) v = ({ tasks := [], config := none }, v)) ∧
    (∀ (v : Option String),
      getTasksOp .circuitOpen v = ({ tasks := [], config := none }, v)) ∧
    (∀ (e : HttpErr), createTaskOp (.failed e) = none) ∧
    (createTaskOp .circuitOpen = none) ∧
    (∀ (e : HttpErr), claimTaskOp (.failed e) = none) ∧
    (claimTaskOp .circuitOpen = none) ∧
    (∀ (e : HttpErr), completeTaskOp (.failed e) = false) ∧
    (completeTaskOp .circuitOpen = false) ∧
    (∀ (e : HttpErr), failTaskOp (.failed e) = false) ∧
    (failTaskOp .circuitOpen = false) ∧
    (∀ (e : HttpErr), sendSignalsOp (.failed e) = false) ∧
    (sendSignalsOp .circuitOpen = false) := by
  refine ⟨?_, ?_, ?_, ?_, ?_, ?_, ?_, ?_, ?_, ?_, ?_, ?_, ?_, ?_, ?_, ?_, ?_, ?_⟩ <;>
    intros <;> rfl

/-- A fold that inserts nothing (every claim rejected) leaves the set as
it was. -/
theorem foldl_claim_rejected (claimOk : String → Bool) (hc : ∀ id, claimOk id = false) :
    ∀ (l : List String) (acc : Finset String),
      l.foldl (fun acc id => if claimOk id then insert id acc else acc) acc = acc := by
  intro l
  induction l with
  | nil => intro acc; rfl
  | cons x xs ih =>
    intro acc
    simp only [List.foldl_cons, hc x, Bool.false_eq_true, if_neg, reduceIte]
    exact ih acc

/-- Claim C9: an HTTP-chain failure under `claimTask` (thrown error or open
circuit) yields `null`, exactly like a server-rejected claim; `executeTask`
then returns after the claim call alone — no `failTask`, no signal — and a
poll tick in which every claim comes back `null` leaves the runtime state
(in particular the in-flight set) unchanged. -/
theorem claim_failure_indistinguishable_and_silently_dropped :
    (∀ (e : HttpErr), claimTaskOp (.failed e) = none) ∧
    (claimTaskOp .circuitOpen = none) ∧
    (∀ (t : Option AgentTask), claimTaskOp (.ok { claimed := false, task := t }) = none) ∧
    (∀ (id : String) (h : HandlerOutcome),
      executeTaskCalls id false h = [TaskApiCall.claimT id]) ∧
    (∀ (s : RuntimeState) (tasks : List String),
      pollStep s tasks (fun _ => false) = s) := by
  refine ⟨fun _ => rfl, rfl, fun _ => rfl, fun _ _ => rfl, ?_⟩
  intro s tasks
  unfold pollStep
  dsimp only
  split
  · rfl
  · rw [foldl_claim_rejected (fun _ => false) (fun _ => rfl)]

/-- Claim C8: once a claim succeeds, `executeTask` issues exactly one
terminal report for that task — one `completeTask` or one `failTask`, never
both, never neither — on every execution path (handler success, handler
error, cancellation observed after the handler returned, cancellation
observed in the error handler); and with no successful claim it issues no
report at all. -/
theorem executeTask_reports_exactly_once (id : String) (h : HandlerOutcome) :
    ((executeTaskCalls id true h).countP (fun c => isReportFor id c) = 1) ∧
    ((executeTaskCalls id false h).countP (fun c => isReportFor id c) = 0) := by
  constructor
  · cases h with
    | ok aborted =>
      cases aborted <;> simp [executeTaskCalls, isReportFor, List.countP_cons]
    | raised msg aborted =>
      cases aborted <;> simp [executeTaskCalls, isReportFor, List.countP_cons]
  · cases h <;> simp [executeTaskCalls, isReportFor, List.countP_cons]

/-- Claim C2, counterexample: the in-flight count can exceed the configured
cap. Reachable run: with cap 2 a poll tick admits and claims two tasks, then a
config application (e.g. delivered by piggyback) lowers
`max_concurrent_tasks` to 1; `updateIntervals` overwrites the cap without
cancelling in-flight work, so the state has 2 in-flight > cap 1. -/
theorem inflight_cap_cex :
    (rtRun (rtInit 2)
        [RtEvent.pollTick ["a", "b"] (fun _ => true),
         RtEvent.applyConfig 1]).maxConcurrentTasks
      < (rtRun (rtInit 2)
        [RtEvent.pollTick ["a", "b"] (fun _ => true),
         RtEvent.applyConfig 1]).activeTasks.card := by
  decide

/-- A fold of conditional inserts grows the set by at most the list length. -/
theorem foldl_insert_card_le (claimOk : String → Bool) :
    ∀ (l : List String) (acc : Finset String),
      (l.foldl (fun acc id => if claimOk id then insert id acc else acc) acc).card
        ≤ acc.card + l.length := by
  intro l
  induction l with
  | nil => intro acc; simp
  | cons x xs ih =>
    intro acc
    simp only [List.foldl_cons, List.length_cons]
    by_cases hx : claimOk x = true
    · rw [if_pos hx]
      refine le_trans (ih (insert x acc)) ?_
      have := Finset.card_insert_le x acc
      omega
    · rw [if_neg hx]
      refine le_trans (ih acc) ?_
      omega

/-- A poll tick never pushes the in-flight count over the cap in force at the
tick. -/
theorem pollStep_card_le (s : RuntimeState) (tasks : List String)
    (claimOk : String → Bool) (hs : s.activeTasks.card ≤ s.maxConcurrentTasks) :
    (pollStep s tasks claimOk).activeTasks.card
      ≤ (pollStep s tasks claimOk).maxConcurrentTasks := by
  unfold pollStep
  dsimp only
  split
  · exact hs
  · dsimp only
    refine le_trans (foldl_insert_card_le claimOk _ _) ?_
    have hlen : (tasks.take (s.maxConcurrentTasks - s.activeTasks.card)).length
        ≤ s.maxConcurrentTasks - s.activeTasks.card := by
      simp [List.length_take]
    omega

/-- Invariant: along any event trace all of whose config applications keep the
cap at or above the in-flight count current at that application, the in-flight
count stays at or below the cap. -/
theorem rtRun_card_le :
    ∀ (es : List RtEvent) (s : RuntimeState),
      s.activeTasks.card ≤ s.maxConcurrentTasks →
      (∀ pre m post, es = pre ++ RtEvent.applyConfig m :: post →
        (rtRun s pre).activeTasks.card ≤ m) →
      (rtRun s es).activeTasks.card ≤ (rtRun s es).maxConcurrentTasks := by
  intro es
  induction es with
  | nil => intro s hs _; exact hs
  | cons e rest ih =>
    intro s hs hcfg
    have hstep : (rtStep s e).activeTasks.card ≤ (rtStep s e).maxConcurrentTasks := by
      cases e with
      | pollTick tasks claimOk => exact pollStep_card_le s tasks claimOk hs
      | taskFinish id => exact le_trans (le_trans Finset.card_erase_le hs) le_rfl
      | applyConfig m => exact hcfg [] m rest rfl
    have hrun : rtRun s (e :: rest) = rtRun (rtStep s e) rest := by
      simp [rtRun]
    rw [hrun]
    refine ih (rtStep s e) hstep ?_
    intro pre m post hpre
    have h := hcfg (e :: pre) m post (by rw [hpre]; rfl)
    simpa [rtRun] using h

/-- Claim C2 (amended): a poll tick never admits beyond the cap current at
that tick, so along every interleaving of poll ticks, claims, task
completions and config applications in which each config application sets
`max_concurrent_tasks` to at least the in-flight count at that moment, the
in-flight count is at most the configured cap at every reachable state. (A
config application that lowers the cap below the current in-flight count
transiently violates the bound — see the counterexample — and is the only way
to do so.) -/
theorem inflight_at_most_cap (max0 : Nat) (es : List RtEvent)
    (hcfg : ∀ pre m post, es = pre ++ RtEvent.applyConfig m :: post →
      (rtRun (rtInit max0) pre).activeTasks.card ≤ m) :
    (rtRun (rtInit max0) es).activeTasks.card
      ≤ (rtRun (rtInit max0) es).maxConcurrentTasks :=
  rtRun_card_le es (rtInit max0) (by simp [rtInit]) hcfg

/-- Witness for the amended C2: three tasks polled under cap 2 — only two are
admitted and the bound holds. -/
theorem inflight_at_most_cap_witness :
    (rtRun (rtInit 2) [RtEvent.pollTick ["a", "b", "c"] (fun _ => true)]).activeTasks.card
      ≤ (rtRun (rtInit 2)
          [RtEvent.pollTick ["a", "b", "c"] (fun _ => true)]).maxConcurrentTasks := by
  refine inflight_at_most_cap 2 _ ?_
  intro pre m post hpre
  exfalso
  rcases pre with _ | ⟨x, pre⟩ <;> simp at hpre

/-- Claim C5, counterexample: the wrong-length key `agnt_xxxx` of scenario S6
passes `validateConfig` (the code checks only the `agnt_` prefix), although it
does not match the 32-hex credential shape the claim requires; the process
therefore starts instead of exiting. -/
theorem validateConfig_short_key_cex :
    (validateConfig shortKeyConfig).1 = true ∧ specApiKeyPattern "agnt_xxxx" = false := by
  constructor
  · decide
  · decide

/-- Claim C5 (amended): with the other environment values in range, local
validation accepts `ADNO_API_KEY` if and only if it is non-empty and starts
with `agnt_` — no length or hex check is applied, so a wrong-length key such
as `agnt_xxxx` passes; only a key failing the prefix test makes validation
fail (upon which the process logs the errors and exits 1 before any network
call). -/
theorem validateConfig_accepts_prefix_only (c : AgentConfig)
    (hurl : ¬ (c.apiUrl = "" ∨ ¬ strStartsWith c.apiUrl "http" = true))
    (hpoll : ¬ (c.pollIntervalMs < 5000 ∨ 300000 < c.pollIntervalMs))
    (hhb : ¬ (c.heartbeatIntervalMs < 10000 ∨ 600000 < c.heartbeatIntervalMs))
    (hmax : ¬ (c.maxConcurrentTasks < 1 ∨ 10 < c.maxConcurrentTasks)) :
    (validateConfig c).1 = true
      ↔ (c.apiKey ≠ "" ∧ strStartsWith c.apiKey "agnt_" = true) := by
  unfold validateConfig
  rw [if_neg hurl, if_neg hpoll, if_neg hhb, if_neg hmax]
  by_cases hk : c.apiKey = "" ∨ ¬ strStartsWith c.apiKey "agnt_" = true
  · rw [if_pos hk]
    simp only [List.append_nil, List.isEmpty_cons]
    constructor
    · intro h
      exact absurd h (by simp)
    · intro h
      exact absurd hk (by tauto)
  · rw [if_neg hk]
    simp only [List.append_nil, List.isEmpty_nil]
    constructor
    · intro _
      constructor
      · intro he
        exact hk (Or.inl he)
      · by_contra hs
        exact hk (Or.inr hs)
    · intro _
      trivial

/-- Witness for the amended C5: the S6 environment (`agnt_xxxx`, everything
else in range) — the iff instantiates, and the left side is `true`. -/
theorem validateConfig_accepts_prefix_only_witness :
    (validateConfig shortKeyConfig).1 = true
      ↔ (shortKeyConfig.apiKey ≠ "" ∧ strStartsWith shortKeyConfig.apiKey "agnt_" = true) :=
  validateConfig_accepts_prefix_only shortKeyConfig (by decide) (by decide) (by decide)
    (by decide)

/-- Claim C1 (code defect, evaluated at the failing input): with a backend
config present (base task-poll interval 300 000 ms), (1) `getTasks` catches
every HTTP failure and returns `{ tasks: [] }`, so `pollAndExecuteTasks`
treats the tick as successful and `consecutivePollingFailures` never
increments — the tick leaves the scheduling state untouched; and (2) even on
the explicit failure path, `restartTaskPollingWithBackoff` stores the
computed `min(base · 2 ^ 1, 1 h) = 600 000` in `currentTaskPollIntervalMs`,
but the timer restarted by `startTaskPolling` uses
`backendConfig.task_poll_interval_ms ?? currentTaskPollIntervalMs` and so
runs at the base 300 000 ms, not at the promised backoff interval. -/
theorem taskPoll_backoff_ineffective :
    (∀ (e : HttpErr) (v : Option String),
        getTasksOp (CallResult.failed e) v = ({ tasks := [], config := none }, v))
    ∧ pollTickSchedule pollStateBase true = pollStateBase
    ∧ (pollTickSchedule pollStateBase false).currentTaskPollIntervalMs = 600000
    ∧ (pollTickSchedule pollStateBase false).timerPeriodMs = 300000 := by
  refine ⟨fun _ _ => rfl, rfl, ?_, ?_⟩ <;> decide

end Adno
